import Mathlib

/-!
Verification of the Weekendly scheduling core: a shallow embedding of the
conflict-detection, placement, normalization, virtualization and persistence
functions of the repository, with theorems checking the specification's claims.

Conventions of the embedding:
* JavaScript numbers that can be `NaN` are modelled as `Option Int`
  (`none` = NaN); arithmetic and comparison helpers propagate `none`
  exactly as JS propagates NaN (`NaN < x` is false, `Math.max(NaN, x)` is NaN).
* `Math.floor(a / b)` on integers is `Int.fdiv`, JS `%` is `Int.tmod`,
  `Math.round x = ⌊x + 1/2⌋`, `Math.ceil(a / b) = Int.fdiv (a + b - 1) b`.
* Strings are Lean strings; the JS helpers `split(":")`, `parseInt`,
  `Number`, `trim` and `padStart(2, "0")` are reimplemented structurally
  below (restricted to the character data actually reachable here:
  `parseInt`/`Number` are modelled on unsigned decimal digit strings,
  which is the only shape the planner produces or that the regex in
  `normalizeTime` lets through).
-/

/-- Numeric value of a list of decimal digit characters (`'0'` has code 48). -/
def digitsToNat (cs : List Char) : Nat :=
  cs.foldl (fun acc c => acc * 10 + (c.toNat - 48)) 0

/-- Longest prefix of decimal digits, as used by `parseInt`. -/
def leadingDigits : List Char → List Char
  | [] => []
  | c :: rest => if c.isDigit then c :: leadingDigits rest else []

/-- JS `parseInt(s, 10)` on the strings reachable in this code base:
`none` models the `NaN` result when the string does not start with a digit. -/
def jsParseInt (cs : List Char) : Option Int :=
  match leadingDigits cs with
  | [] => none
  | ds => some (digitsToNat ds)

/-- JS `Number(s)` on the strings reachable here: the whole string must be
decimal digits; the empty string converts to `0`; anything else is `NaN`. -/
def jsNumber (cs : List Char) : Option Int :=
  if cs.all Char.isDigit then some (digitsToNat cs) else none

/-- JS `s.split(":")`: always at least one (possibly empty) part. -/
def splitColon : List Char → List (List Char)
  | [] => [[]]
  | c :: rest =>
    if c = ':' then [] :: splitColon rest
    else
      match splitColon rest with
      | [] => [[c]]
      | p :: ps => (c :: p) :: ps

/-- Whitespace stripped by JS `String.prototype.trim` (the subset reachable
from the planner's text inputs). -/
def isJsWhitespace (c : Char) : Bool :=
  c = ' ' || c = '\t' || c = '\n' || c = '\r'

/-- JS `s.trim()`. -/
def jsTrim (s : String) : String :=
  String.mk (((s.data.dropWhile isJsWhitespace).reverse.dropWhile isJsWhitespace).reverse)

/-- JS `String(n).padStart(2, "0")`. -/
def padStart2 (s : String) : String :=
  if s.length < 2 then "0" ++ s else s

/-- `clamp(val, min, max) = Math.min(Math.max(val, min), max)` from the
schedule component.  Note the order: the lower bound is applied first, so
when `lo > hi` the result is `hi`. -/
def clamp (val lo hi : Int) : Int := min (max val lo) hi

/-- `roundToStep(minutes, step) = Math.round(minutes / step) * step`;
`Math.round x = ⌊x + 1/2⌋`, so the quotient is `⌊(2m + step) / (2 step)⌋`. -/
def roundToStep (minutes step : Int) : Int :=
  Int.fdiv (2 * minutes + step) (2 * step) * step

/-- `toTimeString(total)` from the schedule component:
`h = Math.floor(total / 60)`, `m = total % 60`, both zero-padded.
There is no clamping of `total`. -/
def toTimeString (total : Int) : String :=
  padStart2 (toString (Int.fdiv total 60)) ++ ":" ++ padStart2 (toString (Int.tmod total 60))

/-- `toMinutes(time)` from the schedule component:
`time.split(":")`, `parseInt` each part, `h * 60 + (m || 0)`.
A `NaN` hour makes the whole result `NaN`; a `NaN`, missing or zero minute
contributes `0`. -/
def toMinutes (time : String) : Option Int :=
  let parts := splitColon time.data
  let h := jsParseInt (parts.headD [])
  let m :=
    match parts.drop 1 with
    | [] => none
    | p :: _ => jsParseInt p
  match h with
  | none => none
  | some hv => some (hv * 60 + m.getD 0)

/-- JS `<` where either side may be `NaN` (`none`): any comparison with
`NaN` is false. -/
def jsLtO (a b : Option Int) : Bool :=
  match a, b with
  | some x, some y => decide (x < y)
  | _, _ => false

/-- Adding a plain number to a possibly-`NaN` number. -/
def jsAddO (a : Option Int) (d : Int) : Option Int :=
  a.map (fun x => x + d)

/-- `Math.max` where either side may be `NaN`: `NaN` is absorbing. -/
def jsMaxO (a b : Option Int) : Option Int :=
  match a, b with
  | some x, some y => some (max x y)
  | _, _ => none

/-- `Math.ceil(v / 30) * 30`. -/
def jsCeil30 (v : Int) : Int := Int.fdiv (v + 29) 30 * 30

/-- The regex `^\d{1,2}:\d{2}$` of `normalizeTime`: one or two digits, a
colon, exactly two digits. -/
def matchesTimeRe (s : String) : Bool :=
  match s.data with
  | [h1, c, m1, m2] => h1.isDigit && decide (c = ':') && m1.isDigit && m2.isDigit
  | [h1, h2, c, m1, m2] =>
    h1.isDigit && h2.isDigit && decide (c = ':') && m1.isDigit && m2.isDigit
  | _ => false

/-- `normalizeTime(val)` from the schedule component: a string that does not
match `^\d{1,2}:\d{2}$` becomes `"08:00"`; otherwise the two digit groups are
converted with `Number`, the hour is clamped to `[0, 23]`, the minute to
`[0, 59]`, and both are zero-padded.  (Under the regex guard both groups are
digit strings, so the `Number` conversions always succeed; `getD 0` is
unreachable.) -/
def normalizeTime (val : String) : String :=
  if matchesTimeRe val then
    let parts := splitColon val.data
    let h := (jsNumber (parts.headD [])).getD 0
    let m := (jsNumber ((parts.drop 1).headD [])).getD 0
    padStart2 (toString (clamp h 0 23)) ++ ":" ++ padStart2 (toString (clamp m 0 59))
  else "08:00"

/-- A two-character decimal group whose value is at most `limit`. -/
def pairOK (limit : Nat) (cs : List Char) : Bool :=
  match cs with
  | [c1, c2] =>
    c1.isDigit && c2.isDigit && decide ((c1.toNat - 48) * 10 + (c2.toNat - 48) ≤ limit)
  | _ => false

/-- A zero-padded `HH:MM` string with hour `00`–`23` and minute `00`–`59`. -/
def isValidHHMM (s : String) : Bool :=
  match s.data with
  | [h1, h2, c, m1, m2] => decide (c = ':') && pairOK 23 [h1, h2] && pairOK 59 [m1, m2]
  | _ => false

inductive DayKey
  | saturday
  | sunday
  deriving DecidableEq

inductive Mood
  | chill
  | energetic
  | social
  | focus
  deriving DecidableEq

inductive Category
  | outdoor
  | food
  | fitness
  | culture
  | home
  | other
  deriving DecidableEq

/-- `WeekendActivity` from the schedule component; `start` is an `"HH:MM"`
string, `durationMins` an integer number of minutes. -/
structure WeekendActivity where
  id : String
  title : String
  category : Category
  day : DayKey
  start : String
  durationMins : Int
  mood : Option Mood
  notes : String
  deriving DecidableEq

/-- The external drag payload parsed in `handleDrop`
(`{ title, category, durationMins, mood?, notes? }`); a missing `title` is
modelled as `""` and a missing `durationMins` as `0`, which the falsy-field
validation rejects exactly like the JS `!payload.x` checks. -/
structure ExternalPayload where
  title : String
  category : Option Category
  durationMins : Int
  mood : Option Mood
  notes : Option String
  deriving DecidableEq

/-- `hasConflict(activities, candidate, excludeId)` from the schedule
component: restrict to the candidate's day, drop the activity with
`excludeId`, and test half-open interval overlap on parsed minutes. -/
def hasConflict (activities : List WeekendActivity) (candidate : WeekendActivity)
    (excludeId : Option String) : Bool :=
  let dayActs := activities.filter fun a =>
    decide (a.day = candidate.day) && decide (some a.id ≠ excludeId)
  let cStart := toMinutes candidate.start
  let cEnd := jsAddO cStart candidate.durationMins
  dayActs.any fun a =>
    let aStart := toMinutes a.start
    let aEnd := jsAddO aStart a.durationMins
    jsLtO cStart aEnd && jsLtO aStart cEnd

/-- The moved copy built in the internal-drag branch of `handleDrop`:
same activity, new day, start formatted from the clamped drop minute. -/
def moveCandidate (found : WeekendActivity) (day : DayKey)
    (mins startHour endHour : Int) : WeekendActivity :=
  let duration := found.durationMins
  let startStr := toTimeString (clamp mins (startHour * 60) (endHour * 60 - duration))
  { found with day := day, start := startStr }

/-- The internal-drag branch of `handleDrop` (move an existing activity):
unknown id or a conflict leaves the list untouched, otherwise the activity
is replaced in place. -/
def moveActivity (prev : List WeekendActivity) (internalId : String) (day : DayKey)
    (mins startHour endHour : Int) : List WeekendActivity :=
  match prev.find? (fun a => decide (a.id = internalId)) with
  | none => prev
  | some found =>
    let updated := moveCandidate found day mins startHour endHour
    if hasConflict prev updated (some internalId) then prev
    else prev.map fun a => if a.id = internalId then updated else a

/-- The new activity built in the external-drop branch of `handleDrop`:
duration rounded to the 15-minute grid with a floor of 15, start formatted
from the clamped drop minute. -/
def mkExternalAct (payload : ExternalPayload) (c : Category) (newId : String)
    (day : DayKey) (mins startHour endHour : Int) : WeekendActivity :=
  let duration := max 15 (roundToStep payload.durationMins 15)
  let startStr := toTimeString (clamp mins (startHour * 60) (endHour * 60 - duration))
  { id := newId, title := payload.title, category := c, day := day,
    start := startStr, durationMins := duration, mood := payload.mood,
    notes := payload.notes.getD "" }

/-- The external-drop branch of `handleDrop`: falsy `title`, `category` or
`durationMins` rejects the payload; a conflict rejects the placement; an
accepted activity is appended. -/
def insertExternal (prev : List WeekendActivity) (payload : ExternalPayload)
    (newId : String) (day : DayKey) (mins startHour endHour : Int) :
    List WeekendActivity :=
  if payload.title = "" then prev
  else
    match payload.category with
    | none => prev
    | some c =>
      if payload.durationMins = 0 then prev
      else
        let newAct := mkExternalAct payload c newId day mins startHour endHour
        if hasConflict prev newAct none then prev
        else prev ++ [newAct]

/-- The `cleaned` activity built by `saveEdit`: trimmed title with
`"Untitled"` fallback, duration rounded to the 15-minute grid with a floor
of 15, start passed through `normalizeTime`. -/
def cleanedOf (editDraft : WeekendActivity) : WeekendActivity :=
  { editDraft with
    title := if jsTrim editDraft.title = "" then "Untitled" else jsTrim editDraft.title,
    durationMins := max 15 (roundToStep editDraft.durationMins 15),
    start := normalizeTime editDraft.start }

/-- `saveEdit` from the schedule component: a conflict (excluding the
edited id) leaves the list untouched, otherwise the cleaned activity
replaces the one with its id. -/
def saveEdit (prev : List WeekendActivity) (editDraft : WeekendActivity) :
    List WeekendActivity :=
  let cleaned := cleanedOf editDraft
  if hasConflict prev cleaned (some cleaned.id) then prev
  else prev.map fun a => if a.id = cleaned.id then cleaned else a

/-- `removeActivity` from the schedule component. -/
def removeActivity (prev : List WeekendActivity) (id : String) :
    List WeekendActivity :=
  prev.filter fun a => decide (a.id ≠ id)

/-- The local `toMinutes` of the page module (used by `pickNextStartTime`):
`t.split(":").map(Number)` and `h * 60 + m`; a missing or non-numeric part
makes the result `NaN`. -/
def pageToMinutes (t : String) : Option Int :=
  match (splitColon t.data).map jsNumber with
  | [] => none
  | [_] => none
  | h :: m :: _ =>
    match h, m with
    | some hv, some mv => some (hv * 60 + mv)
    | _, _ => none

/-- The reduction inside `pickNextStartTime`: the latest Saturday end,
seeded with the 07:00 floor (420 minutes). -/
def satMaxEnd (satActs : List WeekendActivity) : Option Int :=
  satActs.foldl
    (fun mx a => jsMaxO mx (jsAddO (pageToMinutes a.start) a.durationMins))
    (some (7 * 60))

/-- `pickNextStartTime(existing)` from the page module: `"10:00"` when there
are no Saturday activities, otherwise the latest Saturday end poured through
`Math.ceil(… / 30) * 30` and `Math.min(…, 22 * 60 + 30)` and formatted like
`toTimeString`.  A malformed start propagates `NaN` into the formatting. -/
def pickNextStartTime (existing : List WeekendActivity) : String :=
  let satActs := existing.filter fun a => decide (a.day = DayKey.saturday)
  if satActs.isEmpty then "10:00"
  else
    match satMaxEnd satActs with
    | none => "NaN:NaN"
    | some maxEnd =>
      let rounded := jsCeil30 maxEnd
      let clamped := min rounded (22 * 60 + 30)
      toTimeString clamped

/-- One entry of the `useVirtualization` result. -/
structure VirtualItem where
  index : Nat
  start : Nat
  end_ : Nat
  size : Nat
  deriving DecidableEq

/-- The pure core of `useVirtualization`: below (or at) the threshold every
index is returned with its cumulative offsets; above it the window is
`[floor(scroll / h) - overscan, ceil((scroll + container) / h) + overscan]`
clamped to `[0, n - 1]`.  Pixel quantities are modelled as naturals, so
`max(0, …)` is truncated subtraction. -/
def computeVirtualItems (n itemHeight containerHeight scrollOffset overscan threshold : Nat) :
    List VirtualItem :=
  if n ≤ threshold then
    (List.range n).map fun index =>
      { index := index, start := index * itemHeight,
        end_ := (index + 1) * itemHeight, size := itemHeight }
  else
    let startIndex := scrollOffset / itemHeight - overscan
    let endIndex :=
      min (n - 1) ((scrollOffset + containerHeight + itemHeight - 1) / itemHeight + overscan)
    (List.range' startIndex (endIndex + 1 - startIndex)).map fun i =>
      { index := i, start := i * itemHeight,
        end_ := (i + 1) * itemHeight, size := itemHeight }

inductive PlanTheme
  | lazy
  | adventurous
  | family
  deriving DecidableEq

/-- The optional `metadata` block of a stored plan. -/
structure PlanMetadata where
  tags : Option (List String)
  notes : Option String
  isTemplate : Option Bool
  deriving DecidableEq

/-- `WeekendPlan` from the persistence layer; timestamps are modelled as
integers. -/
structure WeekendPlan where
  id : String
  theme : PlanTheme
  activities : List WeekendActivity
  createdAt : Int
  updatedAt : Int
  version : Int
  metadata : Option PlanMetadata
  deriving DecidableEq

/-- `Partial<WeekendPlan>`: every field optional; an absent field is `none`. -/
structure PlanPatch where
  id : Option String
  theme : Option PlanTheme
  activities : Option (List WeekendActivity)
  createdAt : Option Int
  updatedAt : Option Int
  version : Option Int
  metadata : Option (Option PlanMetadata)
  deriving DecidableEq

/-- The JS spread `{ ...plan, ...updates }`: each field present in the patch
overrides the stored one. -/
def spreadPatch (plan : WeekendPlan) (updates : PlanPatch) : WeekendPlan :=
  { id := updates.id.getD plan.id,
    theme := updates.theme.getD plan.theme,
    activities := updates.activities.getD plan.activities,
    createdAt := updates.createdAt.getD plan.createdAt,
    updatedAt := updates.updatedAt.getD plan.updatedAt,
    version := updates.version.getD plan.version,
    metadata := updates.metadata.getD plan.metadata }

/-- The record update performed by `updatePlanInIndexedDB` (the structured
backend): `{ ...existingPlan, ...updates, updatedAt: new Date(),
version: existingPlan.version + 1 }`; a missing plan rejects with
`Plan not found` (`none`).  The secondary activity-index rewrite does not
touch the plan record and is not needed for the version claim. -/
def updatePlanInIndexedDB (stored : Option WeekendPlan) (updates : PlanPatch)
    (now : Int) : Option WeekendPlan :=
  match stored with
  | none => none
  | some existingPlan =>
    some { spreadPatch existingPlan updates with
           updatedAt := now, version := existingPlan.version + 1 }

/-- The record update performed by `updatePlanInLocalStorage` (the flat-key
fallback): `{ ...plan, ...updates, updatedAt: new Date().toISOString() }`;
a missing key throws `Plan not found` (`none`).  Note that no `version`
field is written beyond what the patch itself carries. -/
def updatePlanInLocalStorage (stored : Option WeekendPlan) (updates : PlanPatch)
    (now : Int) : Option WeekendPlan :=
  match stored with
  | none => none
  | some plan =>
    some { spreadPatch plan updates with updatedAt := now }

/-- Half-open overlap of two activities on parsed minutes, as the spec words
it (`s1 < e2 AND s2 < e1`); false when either start fails to parse, matching
the `NaN` comparison behaviour of the code. -/
def overlapsB (x y : WeekendActivity) : Bool :=
  match toMinutes x.start, toMinutes y.start with
  | some xs, some ys =>
    decide (xs < ys + y.durationMins) && decide (ys < xs + x.durationMins)
  | _, _ => false

/-- Sample plan used to exercise the persistence layer. -/
def samplePlan : WeekendPlan :=
  { id := "plan_1", theme := PlanTheme.lazy, activities := [],
    createdAt := 0, updatedAt := 0, version := 1, metadata := none }

/-- A patch that contains no field at all. -/
def emptyPatch : PlanPatch :=
  { id := none, theme := none, activities := none, createdAt := none,
    updatedAt := none, version := none, metadata := none }

/-- A dropped payload whose duration (20 hours) exceeds the default
5:00–23:00 day window. -/
def payloadSpa : ExternalPayload :=
  { title := "Spa", category := some Category.home, durationMins := 1200,
    mood := none, notes := none }

/-- A Saturday activity that ends at 06:15, before the 07:00 floor of
`pickNextStartTime`. -/
def actEarly : WeekendActivity :=
  { id := "e1", title := "Jog", category := Category.fitness,
    day := DayKey.saturday, start := "06:00", durationMins := 15,
    mood := none, notes := "" }

/-- A Saturday breakfast, 09:00–10:00. -/
def actBreakfast : WeekendActivity :=
  { id := "a1", title := "Breakfast", category := Category.food,
    day := DayKey.saturday, start := "09:00", durationMins := 60,
    mood := none, notes := "" }

/-- A Saturday activity ending exactly at 12:00. -/
def actMorning : WeekendActivity :=
  { id := "a2", title := "Museum", category := Category.culture,
    day := DayKey.saturday, start := "11:00", durationMins := 60,
    mood := none, notes := "" }

/-- A Saturday lunch, 12:00–13:00, back to back with `actMorning`. -/
def actLunch : WeekendActivity :=
  { id := "a3", title := "Lunch", category := Category.food,
    day := DayKey.saturday, start := "12:00", durationMins := 60,
    mood := none, notes := "" }

/-- A dropped payload with an ordinary one-hour duration. -/
def payloadWalk : ExternalPayload :=
  { title := "Walk", category := some Category.outdoor, durationMins := 60,
    mood := none, notes := none }

theorem overlapCheck_eq_overlapsB (cand a : WeekendActivity) :
    (jsLtO (toMinutes cand.start) (jsAddO (toMinutes a.start) a.durationMins) &&
      jsLtO (toMinutes a.start) (jsAddO (toMinutes cand.start) cand.durationMins)) =
    overlapsB cand a := by
  unfold overlapsB
  cases hc : toMinutes cand.start <;> cases ha : toMinutes a.start <;>
    simp [jsLtO, jsAddO]

theorem overlapsB_eq_true_iff (cand a : WeekendActivity) :
    overlapsB cand a = true ↔
      ∃ cs as_, toMinutes cand.start = some cs ∧ toMinutes a.start = some as_ ∧
        cs < as_ + a.durationMins ∧ as_ < cs + cand.durationMins := by
  unfold overlapsB
  cases hc : toMinutes cand.start <;> cases ha : toMinutes a.start <;> simp

theorem overlapsB_symm (x y : WeekendActivity) : overlapsB x y = overlapsB y x := by
  unfold overlapsB
  cases hx : toMinutes x.start <;> cases hy : toMinutes y.start <;> simp
  exact Bool.and_comm _ _

theorem hasConflict_eq_any (acts : List WeekendActivity) (cand : WeekendActivity)
    (excl : Option String) :
    hasConflict acts cand excl =
      acts.any fun a =>
        (decide (a.day = cand.day) && decide (some a.id ≠ excl)) && overlapsB cand a := by
  unfold hasConflict
  rw [List.any_filter]
  congr 1
  funext a
  rw [overlapCheck_eq_overlapsB]

theorem hasConflict_spec (acts : List WeekendActivity) (cand : WeekendActivity)
    (excl : Option String) :
    hasConflict acts cand excl = true ↔
      ∃ a ∈ acts, a.day = cand.day ∧ some a.id ≠ excl ∧
        ∃ cs as_, toMinutes cand.start = some cs ∧ toMinutes a.start = some as_ ∧
          cs < as_ + a.durationMins ∧ as_ < cs + cand.durationMins := by
  rw [hasConflict_eq_any, List.any_eq_true]
  constructor
  · rintro ⟨a, hmem, hcond⟩
    rw [Bool.and_eq_true, Bool.and_eq_true, decide_eq_true_eq, decide_eq_true_eq] at hcond
    exact ⟨a, hmem, hcond.1.1, hcond.1.2, (overlapsB_eq_true_iff cand a).mp hcond.2⟩
  · rintro ⟨a, hmem, hday, hid, hov⟩
    refine ⟨a, hmem, ?_⟩
    rw [Bool.and_eq_true, Bool.and_eq_true, decide_eq_true_eq, decide_eq_true_eq]
    exact ⟨⟨hday, hid⟩, (overlapsB_eq_true_iff cand a).mpr hov⟩

/-- C1: `hasConflict(existing, candidate, excludeId)` is true iff some
existing activity on the candidate's day, other than the one with
`excludeId`, overlaps the candidate under half-open interval semantics
(`candidateStart < otherEnd AND otherStart < candidateEnd`,
`end = start + durationMins`); in particular two back-to-back activities
(one ending exactly when the other starts) never conflict. -/
theorem hasConflict_halfOpen_iff :
    (∀ (acts : List WeekendActivity) (cand : WeekendActivity) (excl : Option String),
      hasConflict acts cand excl = true ↔
        ∃ a ∈ acts, a.day = cand.day ∧ some a.id ≠ excl ∧
          ∃ cs as_, toMinutes cand.start = some cs ∧ toMinutes a.start = some as_ ∧
            cs < as_ + a.durationMins ∧ as_ < cs + cand.durationMins) ∧
    (∀ (a cand : WeekendActivity) (excl : Option String) (cs as_ : Int),
      toMinutes cand.start = some cs → toMinutes a.start = some as_ →
      (cs + cand.durationMins = as_ ∨ as_ + a.durationMins = cs) →
      hasConflict [a] cand excl = false) := by
  refine ⟨hasConflict_spec, ?_⟩
  intro a cand excl cs as_ hc ha hbb
  rw [← Bool.not_eq_true, hasConflict_spec]
  rintro ⟨b, hb, _, _, cs2, bs, hc2, hb2, h1, h2⟩
  simp only [List.mem_singleton] at hb
  subst hb
  rw [hc] at hc2
  rw [ha] at hb2
  injection hc2 with e1
  injection hb2 with e2
  subst e1
  subst e2
  omega

/-- Witness for C1: the activity ending at 12:00 does not conflict with a
candidate starting exactly at 12:00 (half-open boundary). -/
theorem hasConflict_halfOpen_iff_witness :
    hasConflict [actMorning] actLunch none = false :=
  hasConflict_halfOpen_iff.2 actMorning actLunch none 720 660 (by decide) (by decide)
    (Or.inr (by decide))

/-- C4: on a list whose same-day activities are pairwise non-overlapping
under half-open semantics, `hasConflict(list, a, a.id)` is false for every
activity `a` of the list: the exclusion of `a.id` makes a no-op move
conflict-free. -/
theorem hasConflict_excludes_self (acts : List WeekendActivity) (a : WeekendActivity)
    (ha : a ∈ acts)
    (hnd : acts.Pairwise fun x y => x.day = y.day → overlapsB x y = false) :
    hasConflict acts a (some a.id) = false := by
  rw [← Bool.not_eq_true, hasConflict_eq_any, List.any_eq_true]
  rintro ⟨b, hb, hcond⟩
  rw [Bool.and_eq_true, Bool.and_eq_true, decide_eq_true_eq, decide_eq_true_eq] at hcond
  obtain ⟨⟨hday, hid⟩, hov⟩ := hcond
  have hne : b ≠ a := fun h => hid (by rw [h])
  have hsymm : Symmetric fun x y : WeekendActivity => x.day = y.day → overlapsB x y = false := by
    intro x y hxy hday2
    rw [overlapsB_symm]
    exact hxy hday2.symm
  have hr := hnd.forall hsymm ha hb hne.symm
  rw [hr hday.symm] at hov
  exact Bool.false_ne_true hov

/-- Witness for C4: a two-activity non-overlapping Saturday, checking the
first activity against its own slot. -/
theorem hasConflict_excludes_self_witness :
    hasConflict [actBreakfast, actMorning] actBreakfast (some actBreakfast.id) = false :=
  hasConflict_excludes_self [actBreakfast, actMorning] actBreakfast (by decide) (by decide)

/-- C2: whenever a placement request (internal move, external insert, or
edit) is rejected because `hasConflict` reports a conflict, the activity
list after the operation is exactly the list before it. -/
theorem conflict_rejection_preserves_state :
    (∀ (prev : List WeekendActivity) (found : WeekendActivity) (internalId : String)
        (day : DayKey) (mins startHour endHour : Int),
      prev.find? (fun a => decide (a.id = internalId)) = some found →
      hasConflict prev (moveCandidate found day mins startHour endHour) (some internalId) = true →
      moveActivity prev internalId day mins startHour endHour = prev) ∧
    (∀ (prev : List WeekendActivity) (payload : ExternalPayload) (c : Category)
        (newId : String) (day : DayKey) (mins startHour endHour : Int),
      payload.category = some c →
      hasConflict prev (mkExternalAct payload c newId day mins startHour endHour) none = true →
      insertExternal prev payload newId day mins startHour endHour = prev) ∧
    (∀ (prev : List WeekendActivity) (editDraft : WeekendActivity),
      hasConflict prev (cleanedOf editDraft) (some (cleanedOf editDraft).id) = true →
      saveEdit prev editDraft = prev) := by
  refine ⟨?_, ?_, ?_⟩
  · intro prev found internalId day mins sh eh hfind hconf
    unfold moveActivity
    rw [hfind]
    simp [hconf]
  · intro prev payload c newId day mins sh eh hcat hconf
    unfold insertExternal
    rw [hcat]
    by_cases ht : payload.title = ""
    · simp [ht]
    · by_cases hd : payload.durationMins = 0
      · simp [ht, hd]
      · simp [ht, hd, hconf]
  · intro prev editDraft hconf
    unfold saveEdit
    simp [hconf]

/-- Witness for C2: a 12:30 placement of each kind collides with the
12:00–13:00 lunch and leaves the list untouched. -/
theorem conflict_rejection_preserves_state_witness :
    moveActivity [actMorning, actLunch] "a2" DayKey.saturday 750 5 23 =
      [actMorning, actLunch] ∧
    insertExternal [actLunch]
      { title := "Brunch", category := some Category.food, durationMins := 60,
        mood := none, notes := none } "n1" DayKey.saturday 750 5 23 = [actLunch] ∧
    saveEdit [actMorning, actLunch] { actMorning with start := "12:30" } =
      [actMorning, actLunch] := by
  refine ⟨?_, ?_, ?_⟩
  · exact conflict_rejection_preserves_state.1 [actMorning, actLunch] actMorning "a2"
      DayKey.saturday 750 5 23 (by decide) (by decide)
  · exact conflict_rejection_preserves_state.2.1 [actLunch]
      { title := "Brunch", category := some Category.food, durationMins := 60,
        mood := none, notes := none } Category.food "n1" DayKey.saturday 750 5 23
      (by decide) (by decide)
  · exact conflict_rejection_preserves_state.2.2 [actMorning, actLunch]
      { actMorning with start := "12:30" } (by decide)

/-- C3 counterexample: in the flat-key fallback, a successful
`updatePlan` with an empty patch leaves `version` at `1` instead of
raising it to `2`, refuting the claim for the fallback mode. -/
theorem updatePlan_fallback_version_counterexample :
    (updatePlanInLocalStorage (some samplePlan) emptyPatch 5).map WeekendPlan.version =
      some samplePlan.version ∧
    ¬((updatePlanInLocalStorage (some samplePlan) emptyPatch 5).map WeekendPlan.version =
      some (samplePlan.version + 1)) := by
  exact ⟨rfl, by decide⟩

/-- C3 amended: a successful structured-backend `updatePlan` sets the stored
version to exactly the previous version plus 1, regardless of the patch;
the flat-key fallback merely merges the patch, so its stored version is the
patch's `version` field when present and is otherwise unchanged (it is not
incremented by the store).  A missing plan fails in both modes without
writing. -/
theorem updatePlan_version_semantics :
    (∀ (p : WeekendPlan) (patch : PlanPatch) (now : Int),
      (updatePlanInIndexedDB (some p) patch now).map WeekendPlan.version =
        some (p.version + 1)) ∧
    (∀ (p : WeekendPlan) (patch : PlanPatch) (now : Int),
      (updatePlanInLocalStorage (some p) patch now).map WeekendPlan.version =
        some (patch.version.getD p.version)) ∧
    (∀ (patch : PlanPatch) (now : Int),
      updatePlanInIndexedDB none patch now = none ∧
      updatePlanInLocalStorage none patch now = none) :=
  ⟨fun _ _ _ => rfl, fun _ _ _ => rfl, fun _ _ => ⟨rfl, rfl⟩⟩

/-- The cleaned activity of `saveEdit` never has an empty title. -/
theorem cleanedOf_title_ne (editDraft : WeekendActivity) :
    (cleanedOf editDraft).title ≠ "" := by
  unfold cleanedOf
  by_cases h : jsTrim editDraft.title = "" <;> simp [h]

/-- C10: every operation of the schedule preserves the invariant that no
activity has an empty title; an external drop with an empty title is
rejected before anything is created, and an edit whose title trims to the
empty string commits the literal `"Untitled"`. -/
theorem titles_nonempty_invariant :
    (∀ (prev : List WeekendActivity) (payload : ExternalPayload) (newId : String)
        (day : DayKey) (mins startHour endHour : Int),
      (∀ a ∈ prev, a.title ≠ "") →
      ∀ a ∈ insertExternal prev payload newId day mins startHour endHour, a.title ≠ "") ∧
    (∀ (prev : List WeekendActivity) (internalId : String) (day : DayKey)
        (mins startHour endHour : Int),
      (∀ a ∈ prev, a.title ≠ "") →
      ∀ a ∈ moveActivity prev internalId day mins startHour endHour, a.title ≠ "") ∧
    (∀ (prev : List WeekendActivity) (editDraft : WeekendActivity),
      (∀ a ∈ prev, a.title ≠ "") →
      ∀ a ∈ saveEdit prev editDraft, a.title ≠ "") ∧
    (∀ (prev : List WeekendActivity) (id : String),
      (∀ a ∈ prev, a.title ≠ "") →
      ∀ a ∈ removeActivity prev id, a.title ≠ "") := by
  refine ⟨?_, ?_, ?_, ?_⟩
  · intro prev payload newId day mins sh eh hprev a hmem
    unfold insertExternal at hmem
    by_cases ht : payload.title = ""
    · rw [if_pos ht] at hmem
      exact hprev a hmem
    · rw [if_neg ht] at hmem
      cases hcat : payload.category with
      | none => rw [hcat] at hmem; exact hprev a hmem
      | some c =>
        rw [hcat] at hmem
        dsimp only at hmem
        by_cases hd : payload.durationMins = 0
        · rw [if_pos hd] at hmem
          exact hprev a hmem
        · rw [if_neg hd] at hmem
          by_cases hcf :
              hasConflict prev (mkExternalAct payload c newId day mins sh eh) none = true
          · rw [if_pos hcf] at hmem
            exact hprev a hmem
          · rw [if_neg hcf] at hmem
            rcases List.mem_append.mp hmem with hIn | hNew
            · exact hprev a hIn
            · rw [List.mem_singleton] at hNew
              subst hNew
              exact ht
  · intro prev internalId day mins sh eh hprev a hmem
    unfold moveActivity at hmem
    cases hfind : prev.find? (fun x => decide (x.id = internalId)) with
    | none => rw [hfind] at hmem; exact hprev a hmem
    | some found =>
      rw [hfind] at hmem
      dsimp only at hmem
      by_cases hcf :
          hasConflict prev (moveCandidate found day mins sh eh) (some internalId) = true
      · rw [if_pos hcf] at hmem
        exact hprev a hmem
      · rw [if_neg hcf] at hmem
        rcases List.mem_map.mp hmem with ⟨b, hb, heq⟩
        by_cases hid : b.id = internalId
        · rw [if_pos hid] at heq
          subst heq
          have : (moveCandidate found day mins sh eh).title = found.title := rfl
          rw [this]
          exact hprev found (List.mem_of_find?_eq_some hfind)
        · rw [if_neg hid] at heq
          subst heq
          exact hprev b hb
  · intro prev editDraft hprev a hmem
    unfold saveEdit at hmem
    by_cases hcf :
        hasConflict prev (cleanedOf editDraft) (some (cleanedOf editDraft).id) = true
    · rw [if_pos hcf] at hmem
      exact hprev a hmem
    · rw [if_neg hcf] at hmem
      rcases List.mem_map.mp hmem with ⟨b, hb, heq⟩
      by_cases hid : b.id = (cleanedOf editDraft).id
      · rw [if_pos hid] at heq
        subst heq
        exact cleanedOf_title_ne editDraft
      · rw [if_neg hid] at heq
        subst heq
        exact hprev b hb
  · intro prev id hprev a hmem
    exact hprev a (List.mem_filter.mp hmem).1

/-- Witness for C10: an edit whose title trims to the empty string commits
`"Untitled"`, which is non-empty. -/
theorem titles_nonempty_invariant_witness :
    (cleanedOf { actLunch with title := "  " }).title ≠ "" :=
  titles_nonempty_invariant.2.2.1 [actLunch] { actLunch with title := "  " }
    (by decide) (cleanedOf { actLunch with title := "  " }) (by decide)

theorem pairOK_shape (lim : Nat) (cs : List Char) (h : pairOK lim cs = true) :
    ∃ c1 c2, cs = [c1, c2] := by
  cases cs with
  | nil => simp [pairOK] at h
  | cons c1 rest =>
    cases rest with
    | nil => simp [pairOK] at h
    | cons c2 rest2 =>
      cases rest2 with
      | nil => exact ⟨c1, c2, rfl⟩
      | cons c3 rest3 => simp [pairOK] at h

theorem hour_pairs : ∀ n < 24, pairOK 23 (padStart2 (Nat.repr n)).data = true := by decide

theorem minute_pairs : ∀ n < 60, pairOK 59 (padStart2 (Nat.repr n)).data = true := by decide

theorem pad_digits_parse :
    ∀ k < 100, jsParseInt (padStart2 (Nat.repr k)).data = some (k : Int) := by decide

theorem pad_no_colon :
    ∀ k < 100, (padStart2 (Nat.repr k)).data.all (fun c => decide (c ≠ ':')) = true := by
  decide

theorem isValidHHMM_append (s1 s2 : String)
    (h1 : pairOK 23 s1.data = true) (h2 : pairOK 59 s2.data = true) :
    isValidHHMM (s1 ++ ":" ++ s2) = true := by
  obtain ⟨c1, c2, e1⟩ := pairOK_shape 23 s1.data h1
  obtain ⟨d1, d2, e2⟩ := pairOK_shape 59 s2.data h2
  rw [e1] at h1
  rw [e2] at h2
  unfold isValidHHMM
  rw [String.data_append, String.data_append, e1, e2]
  have hc : (":" : String).data = [':'] := rfl
  rw [hc]
  simp only [List.cons_append, List.nil_append]
  simp [h1, h2]

theorem splitColon_of_no_colon (xs : List Char)
    (h : xs.all (fun c => decide (c ≠ ':')) = true) :
    splitColon xs = [xs] := by
  induction xs with
  | nil => rfl
  | cons c rest ih =>
    rw [List.all_cons, Bool.and_eq_true, decide_eq_true_eq] at h
    unfold splitColon
    rw [if_neg h.1, ih h.2]

theorem splitColon_append (xs ys : List Char)
    (h : xs.all (fun c => decide (c ≠ ':')) = true) :
    splitColon (xs ++ ':' :: ys) = xs :: splitColon ys := by
  induction xs with
  | nil =>
    show splitColon (':' :: ys) = [] :: splitColon ys
    simp only [splitColon, if_true]
  | cons c rest ih =>
    rw [List.all_cons, Bool.and_eq_true, decide_eq_true_eq] at h
    show splitColon (c :: (rest ++ ':' :: ys)) = (c :: rest) :: splitColon ys
    simp only [splitColon]
    rw [if_neg h.1, ih h.2]

theorem toMinutes_eq_of_data (t : String) (xs ys : List Char)
    (hdata : t.data = xs ++ ':' :: ys)
    (hx : xs.all (fun c => decide (c ≠ ':')) = true)
    (hy : ys.all (fun c => decide (c ≠ ':')) = true)
    (vx vy : Int)
    (hpx : jsParseInt xs = some vx) (hpy : jsParseInt ys = some vy) :
    toMinutes t = some (vx * 60 + vy) := by
  unfold toMinutes
  rw [hdata, splitColon_append xs ys hx, splitColon_of_no_colon ys hy]
  dsimp only [List.headD, List.drop]
  rw [hpx, hpy]
  rfl

theorem fdiv_ofNat (m k : Nat) : Int.fdiv (m : Int) (k : Int) = ((m / k : Nat) : Int) := by
  cases m with
  | zero =>
    show Int.fdiv 0 (k : Int) = ((0 / k : Nat) : Int)
    rw [Nat.zero_div]
    rfl
  | succ m => rfl

theorem tmod_ofNat (m k : Nat) : Int.tmod (m : Int) (k : Int) = ((m % k : Nat) : Int) := rfl

theorem toTimeString_ofNat (n : Nat) :
    toTimeString (n : Int) =
      padStart2 (Nat.repr (n / 60)) ++ ":" ++ padStart2 (Nat.repr (n % 60)) := by
  have h60 : (60 : Int) = ((60 : Nat) : Int) := rfl
  unfold toTimeString
  rw [h60, fdiv_ofNat n 60, tmod_ofNat n 60]
  rfl

theorem toMinutes_toTimeString (v : Int) (h0 : 0 ≤ v) (h1 : v ≤ 1439) :
    toMinutes (toTimeString v) = some v := by
  obtain ⟨n, rfl⟩ := Int.eq_ofNat_of_zero_le h0
  have hn : n ≤ 1439 := by exact_mod_cast h1
  rw [toTimeString_ofNat n]
  have hdata :
      (padStart2 (Nat.repr (n / 60)) ++ ":" ++ padStart2 (Nat.repr (n % 60))).data =
        (padStart2 (Nat.repr (n / 60))).data ++ ':' :: (padStart2 (Nat.repr (n % 60))).data := by
    rw [String.data_append, String.data_append]
    have hc : (":" : String).data = [':'] := rfl
    rw [hc, List.append_assoc]
    rfl
  rw [toMinutes_eq_of_data _ _ _ hdata
    (pad_no_colon (n / 60) (by omega)) (pad_no_colon (n % 60) (by omega))
    ((n / 60 : Nat) : Int) ((n % 60 : Nat) : Int)
    (pad_digits_parse (n / 60) (by omega)) (pad_digits_parse (n % 60) (by omega))]
  congr 1
  push_cast
  omega

/-- C7 counterexample: `toTimeString` does not clamp its input to
`[0, 1439]`; at 1440 it formats `"24:00"`, whose hour field 24 is outside
`00`–`23`, refuting the claim. -/
theorem toTimeString_no_clamp_counterexample :
    toTimeString 1440 = "24:00" ∧ isValidHHMM (toTimeString 1440) = false :=
  ⟨by decide, by decide⟩

/-- C7 amended: `toTimeString` performs no clamping; for every input
already in `[0, 1439]` the output is a zero-padded `HH:MM` string with
hour between 00 and 23 and minute between 00 and 59, while out-of-range
inputs are formatted as-is (1440 gives `"24:00"`). -/
theorem toTimeString_in_range_valid (total : Int) (h0 : 0 ≤ total)
    (h1 : total ≤ 1439) : isValidHHMM (toTimeString total) = true := by
  obtain ⟨n, rfl⟩ := Int.eq_ofNat_of_zero_le h0
  have hn : n ≤ 1439 := by exact_mod_cast h1
  rw [toTimeString_ofNat n]
  exact isValidHHMM_append _ _ (hour_pairs (n / 60) (by omega))
    (minute_pairs (n % 60) (by omega))

/-- Witness for C7's amended theorem at input 540 (09:00). -/
theorem toTimeString_in_range_valid_witness :
    (0 : Int) ≤ 540 ∧ (540 : Int) ≤ 1439 ∧ isValidHHMM (toTimeString 540) = true :=
  ⟨by decide, by decide, toTimeString_in_range_valid 540 (by decide) (by decide)⟩

theorem duration_norm_dvd (d : Int) : 15 ∣ max 15 (roundToStep d 15) := by
  rcases le_total 15 (roundToStep d 15) with h | h
  · rw [max_eq_right h]
    unfold roundToStep
    exact dvd_mul_left 15 _
  · rw [max_eq_left h]

theorem clamp_le_of_le (v lo hi : Int) (h : lo ≤ hi) :
    lo ≤ clamp v lo hi ∧ clamp v lo hi ≤ hi := by
  unfold clamp
  constructor
  · exact le_min (le_trans (le_max_right v lo) (le_refl _)) h
  · exact min_le_right _ _

/-- C5 counterexample: with the default 5:00–23:00 window, dropping a
payload of duration 1200 minutes at drop minute 600 is committed with
start `"03:00"` (minute 180), which is strictly below the window start
5 × 60 = 300 — the code clamps to the lower bound first and the upper
bound second, so an over-long activity lands below the window start,
refuting the claimed lower bound. -/
theorem insertExternal_window_counterexample :
    insertExternal [] payloadSpa "act_1" DayKey.saturday 600 5 23 =
      [mkExternalAct payloadSpa Category.home "act_1" DayKey.saturday 600 5 23] ∧
    (mkExternalAct payloadSpa Category.home "act_1" DayKey.saturday 600 5 23).durationMins =
      1200 ∧
    (mkExternalAct payloadSpa Category.home "act_1" DayKey.saturday 600 5 23).start =
      "03:00" ∧
    toMinutes ("03:00") = some 180 ∧ (180 : Int) < 5 * 60 :=
  ⟨by decide, by decide, by decide, by decide, by decide⟩

/-- C5 amended: a committed external drop has duration
`max 15 (roundToStep requested 15)` — a multiple of 15 and at least 15 —
and start string `toTimeString (clamp mins (startHour·60) (endHour·60 −
duration))`.  Whenever the normalized duration fits the day window, that
clamped minute lies between the window start and `dayEnd − duration` (the
claimed bounds); and whenever the clamped minute is a valid time of day,
the committed start parses back to exactly that minute. -/
theorem insertExternal_normalization :
    (∀ (prev : List WeekendActivity) (payload : ExternalPayload) (c : Category)
        (newId : String) (day : DayKey) (mins startHour endHour : Int),
      payload.category = some c →
      insertExternal prev payload newId day mins startHour endHour = prev ∨
      insertExternal prev payload newId day mins startHour endHour =
        prev ++ [mkExternalAct payload c newId day mins startHour endHour]) ∧
    (∀ (payload : ExternalPayload) (c : Category) (newId : String) (day : DayKey)
        (mins startHour endHour : Int) (A : WeekendActivity),
      A = mkExternalAct payload c newId day mins startHour endHour →
      (A.durationMins = max 15 (roundToStep payload.durationMins 15) ∧
        15 ∣ A.durationMins ∧ 15 ≤ A.durationMins) ∧
      A.start =
        toTimeString (clamp mins (startHour * 60) (endHour * 60 - A.durationMins)) ∧
      (A.durationMins ≤ endHour * 60 - startHour * 60 →
        startHour * 60 ≤ clamp mins (startHour * 60) (endHour * 60 - A.durationMins) ∧
        clamp mins (startHour * 60) (endHour * 60 - A.durationMins) ≤
          endHour * 60 - A.durationMins) ∧
      (0 ≤ clamp mins (startHour * 60) (endHour * 60 - A.durationMins) →
        clamp mins (startHour * 60) (endHour * 60 - A.durationMins) ≤ 1439 →
        toMinutes A.start =
          some (clamp mins (startHour * 60) (endHour * 60 - A.durationMins)))) := by
  constructor
  · intro prev payload c newId day mins sh eh hcat
    unfold insertExternal
    rw [hcat]
    by_cases ht : payload.title = ""
    · exact Or.inl (by rw [if_pos ht])
    · rw [if_neg ht]
      dsimp only
      by_cases hd : payload.durationMins = 0
      · exact Or.inl (by rw [if_pos hd])
      · rw [if_neg hd]
        by_cases hcf :
            hasConflict prev (mkExternalAct payload c newId day mins sh eh) none = true
        · exact Or.inl (by rw [if_pos hcf])
        · exact Or.inr (by rw [if_neg hcf])
  · intro payload c newId day mins sh eh A hA
    subst hA
    refine ⟨⟨rfl, duration_norm_dvd _, le_max_left _ _⟩, rfl, ?_, ?_⟩
    · intro hfits
      exact clamp_le_of_le mins (sh * 60)
        (eh * 60 - (mkExternalAct payload c newId day mins sh eh).durationMins)
        (by omega)
    · intro hlo hhi
      exact toMinutes_toTimeString _ hlo hhi

/-- Witness for C5's amended theorem: a one-hour payload dropped at minute
600 in the default window keeps its drop minute, and the committed start
parses back to it. -/
theorem insertExternal_normalization_witness :
    toMinutes (mkExternalAct payloadWalk Category.outdoor "w1" DayKey.saturday 600 5 23).start =
      some (clamp 600 (5 * 60)
        (23 * 60 - (mkExternalAct payloadWalk Category.outdoor "w1" DayKey.saturday 600 5 23).durationMins)) :=
  (insertExternal_normalization.2 payloadWalk Category.outdoor "w1" DayKey.saturday
    600 5 23 _ rfl).2.2.2 (by decide) (by decide)

theorem satFold_none (l : List WeekendActivity) :
    l.foldl (fun mx a => jsMaxO mx (jsAddO (pageToMinutes a.start) a.durationMins))
      none = none := by
  induction l with
  | nil => rfl
  | cons a l ih =>
    rw [List.foldl_cons]
    have h : jsMaxO none (jsAddO (pageToMinutes a.start) a.durationMins) = none := by
      cases jsAddO (pageToMinutes a.start) a.durationMins <;> rfl
    rw [h, ih]

theorem satFold_ge (l : List WeekendActivity) (m v : Int)
    (h : l.foldl (fun mx a => jsMaxO mx (jsAddO (pageToMinutes a.start) a.durationMins))
      (some m) = some v) : m ≤ v := by
  induction l generalizing m with
  | nil =>
    injection h with h
    omega
  | cons a l ih =>
    rw [List.foldl_cons] at h
    cases he : jsAddO (pageToMinutes a.start) a.durationMins with
    | none =>
      rw [he, show jsMaxO (some m) none = none from rfl, satFold_none] at h
      exact absurd h (by simp)
    | some e =>
      rw [he, show jsMaxO (some m) (some e) = some (max m e) from rfl] at h
      exact le_trans (le_max_left m e) (ih (max m e) h)

theorem satFold_upper (l : List WeekendActivity) (m v : Int)
    (h : l.foldl (fun mx a => jsMaxO mx (jsAddO (pageToMinutes a.start) a.durationMins))
      (some m) = some v) :
    ∀ a ∈ l, ∀ e, jsAddO (pageToMinutes a.start) a.durationMins = some e → e ≤ v := by
  induction l generalizing m with
  | nil =>
    intro a ha
    exact absurd ha (List.not_mem_nil a)
  | cons b l ih =>
    intro a ha e hae
    rw [List.foldl_cons] at h
    cases he : jsAddO (pageToMinutes b.start) b.durationMins with
    | none =>
      rw [he, show jsMaxO (some m) none = none from rfl, satFold_none] at h
      exact absurd h (by simp)
    | some eb =>
      rw [he, show jsMaxO (some m) (some eb) = some (max m eb) from rfl] at h
      rcases List.mem_cons.mp ha with heq | hmem
      · subst heq
        rw [hae] at he
        injection he with he2
        have hge := satFold_ge l (max m eb) v h
        rw [he2]
        exact le_trans (le_max_right m eb) hge
      · exact ih (max m eb) h a hmem e hae

theorem satFold_mem (l : List WeekendActivity) (m v : Int)
    (h : l.foldl (fun mx a => jsMaxO mx (jsAddO (pageToMinutes a.start) a.durationMins))
      (some m) = some v) :
    v = m ∨ ∃ a ∈ l, jsAddO (pageToMinutes a.start) a.durationMins = some v := by
  induction l generalizing m with
  | nil =>
    injection h with h
    exact Or.inl h.symm
  | cons b l ih =>
    rw [List.foldl_cons] at h
    cases he : jsAddO (pageToMinutes b.start) b.durationMins with
    | none =>
      rw [he, show jsMaxO (some m) none = none from rfl, satFold_none] at h
      exact absurd h (by simp)
    | some eb =>
      rw [he, show jsMaxO (some m) (some eb) = some (max m eb) from rfl] at h
      rcases ih (max m eb) h with hv | ⟨a, ha, hae⟩
      · rcases max_choice m eb with hm | hm
        · exact Or.inl (by rw [hv, hm])
        · refine Or.inr ⟨b, List.mem_cons_self b l, ?_⟩
          rw [hv, hm]
          exact he
      · exact Or.inr ⟨a, List.mem_cons_of_mem b ha, hae⟩

/-- C6 counterexample: a single Saturday activity ending at 06:15 (375
minutes).  The claim's formula — latest end rounded up to 30 — gives
`"06:30"`, but `pickNextStartTime` returns `"07:00"`, because the reduce is
seeded with the 07:00 floor (420 minutes), not with the activities' ends. -/
theorem pickNextStartTime_floor_counterexample :
    pickNextStartTime [actEarly] = "07:00" ∧
    jsAddO (pageToMinutes actEarly.start) actEarly.durationMins = some 375 ∧
    toTimeString (min (jsCeil30 375) 1350) = "06:30" ∧
    ("07:00" : String) ≠ "06:30" :=
  ⟨by decide, by decide, by decide, by decide⟩

/-- C6 amended: with no Saturday activities the result is the documented
default `"10:00"`; otherwise the result is `max 420 (latest Saturday
start+duration)` — the 07:00 floor applies when every Saturday activity
ends before 07:00 — rounded up to the next 30-minute boundary and clamped
at 22:30 (1350 minutes), so it never exceeds that bound.  `satMaxEnd` is
exactly that floored maximum: it bounds every parseable Saturday end and is
either the floor 420 or one of the ends. -/
theorem pickNextStartTime_spec :
    (∀ existing : List WeekendActivity,
      (existing.filter fun a => decide (a.day = DayKey.saturday)) = [] →
      pickNextStartTime existing = "10:00") ∧
    (∀ (existing : List WeekendActivity) (v : Int),
      (existing.filter fun a => decide (a.day = DayKey.saturday)) ≠ [] →
      satMaxEnd (existing.filter fun a => decide (a.day = DayKey.saturday)) = some v →
      pickNextStartTime existing = toTimeString (min (jsCeil30 v) 1350) ∧
      420 ≤ v ∧ min (jsCeil30 v) 1350 ≤ 1350) ∧
    (∀ (sats : List WeekendActivity) (v : Int),
      satMaxEnd sats = some v →
      (∀ a ∈ sats, ∀ e, jsAddO (pageToMinutes a.start) a.durationMins = some e → e ≤ v) ∧
      (v = 420 ∨ ∃ a ∈ sats, jsAddO (pageToMinutes a.start) a.durationMins = some v)) := by
  refine ⟨?_, ?_, ?_⟩
  · intro existing hnil
    unfold pickNextStartTime
    rw [hnil]
    rfl
  · intro existing v hne hv
    have hempty : (existing.filter fun a => decide (a.day = DayKey.saturday)).isEmpty = false := by
      cases hl : existing.filter fun a => decide (a.day = DayKey.saturday) with
      | nil => exact absurd hl hne
      | cons x xs => rfl
    refine ⟨?_, ?_, min_le_right _ _⟩
    · unfold pickNextStartTime
      dsimp only
      rw [hempty, hv]
      norm_num
    · unfold satMaxEnd at hv
      have := satFold_ge _ (7 * 60) v hv
      omega
  · intro sats v hv
    unfold satMaxEnd at hv
    refine ⟨satFold_upper _ _ _ hv, ?_⟩
    rcases satFold_mem _ _ _ hv with h420 | hmem
    · exact Or.inl (by omega)
    · exact Or.inr hmem

/-- Witness for C6's amended theorem: one Saturday breakfast ending at
10:00 (600 minutes) yields the rounded, clamped start time. -/
theorem pickNextStartTime_spec_witness :
    pickNextStartTime [actBreakfast] = toTimeString (min (jsCeil30 600) 1350) :=
  (pickNextStartTime_spec.2.1 [actBreakfast] 600 (by decide) (by decide)).1

theorem digit_ne_colon (c : Char) (h : c.isDigit = true) : c ≠ ':' := by
  intro heq
  rw [heq] at h
  exact absurd h (by decide)

theorem all_digit_no_colon (cs : List Char) (h : cs.all Char.isDigit = true) :
    cs.all (fun c => decide (c ≠ ':')) = true := by
  rw [List.all_eq_true] at h ⊢
  intro c hc
  rw [decide_eq_true_eq]
  exact digit_ne_colon c (h c hc)

theorem jsNumber_digits (cs : List Char) (h : cs.all Char.isDigit = true) :
    jsNumber cs = some ((digitsToNat cs : Nat) : Int) := by
  unfold jsNumber
  rw [if_pos h]

theorem toString_coe_nat (k : Nat) : toString ((k : Nat) : Int) = Nat.repr k := rfl

theorem clamp_coe_23 (k : Nat) : clamp (k : Int) 0 23 = ((min k 23 : Nat) : Int) := by
  unfold clamp
  omega

theorem clamp_coe_59 (k : Nat) : clamp (k : Int) 0 59 = ((min k 59 : Nat) : Int) := by
  unfold clamp
  omega

theorem matchesTimeRe_shape (s : String) (h : matchesTimeRe s = true) :
    ∃ xs ms, s.data = xs ++ ':' :: ms ∧
      xs.all Char.isDigit = true ∧ ms.all Char.isDigit = true := by
  unfold matchesTimeRe at h
  rcases hd : s.data with _ | ⟨c1, _ | ⟨c2, _ | ⟨c3, _ | ⟨c4, _ | ⟨c5, _ | ⟨c6, rest⟩⟩⟩⟩⟩⟩ <;>
    rw [hd] at h
  · exact absurd h (by simp)
  · exact absurd h (by simp)
  · exact absurd h (by simp)
  · exact absurd h (by simp)
  · simp only [Bool.and_eq_true, decide_eq_true_eq] at h
    obtain ⟨⟨⟨h1, h2⟩, h3⟩, h4⟩ := h
    subst h2
    exact ⟨[c1], [c3, c4], rfl, by simp [h1], by simp [h3, h4]⟩
  · simp only [Bool.and_eq_true, decide_eq_true_eq] at h
    obtain ⟨⟨⟨⟨h1, h2⟩, h3⟩, h4⟩, h5⟩ := h
    subst h3
    exact ⟨[c1, c2], [c4, c5], rfl, by simp [h1, h2], by simp [h4, h5]⟩
  · exact absurd h (by simp)

theorem normalizeTime_of_shape (s : String) (xs ms : List Char)
    (hdata : s.data = xs ++ ':' :: ms)
    (hxs : xs.all Char.isDigit = true) (hms : ms.all Char.isDigit = true)
    (hmatch : matchesTimeRe s = true) :
    normalizeTime s =
      padStart2 (Nat.repr (min (digitsToNat xs) 23)) ++ ":" ++
        padStart2 (Nat.repr (min (digitsToNat ms) 59)) := by
  unfold normalizeTime
  rw [if_pos hmatch]
  dsimp only
  rw [hdata, splitColon_append xs ms (all_digit_no_colon xs hxs),
    splitColon_of_no_colon ms (all_digit_no_colon ms hms)]
  dsimp only [List.headD, List.drop]
  rw [jsNumber_digits xs hxs, jsNumber_digits ms hms]
  dsimp only [Option.getD]
  rw [clamp_coe_23, clamp_coe_59, toString_coe_nat, toString_coe_nat]

theorem normalizeTime_valid (s : String) : isValidHHMM (normalizeTime s) = true := by
  by_cases hm : matchesTimeRe s = true
  · obtain ⟨xs, ms, hdata, hxs, hms⟩ := matchesTimeRe_shape s hm
    rw [normalizeTime_of_shape s xs ms hdata hxs hms hm]
    exact isValidHHMM_append _ _ (hour_pairs _ (by omega)) (minute_pairs _ (by omega))
  · unfold normalizeTime
    rw [if_neg hm]
    decide

/-- C8: `saveEdit` commits the whole cleaned draft or nothing (conflicts
leave the list untouched, acceptance replaces exactly the activity with the
draft's id); the committed duration is `max 15 (roundToStep draft 15)`
(a multiple of 15, at least 15); the committed start is
`normalizeTime draft.start`, which maps any string not matching the
`^\d{1,2}:\d{2}$` format to the safe default `"08:00"` and always produces
a zero-padded `HH:MM` with hour clamped into `[0, 23]` and minute into
`[0, 59]`. -/
theorem saveEdit_normalization :
    (∀ (prev : List WeekendActivity) (editDraft : WeekendActivity),
      (hasConflict prev (cleanedOf editDraft) (some (cleanedOf editDraft).id) = true →
        saveEdit prev editDraft = prev) ∧
      (hasConflict prev (cleanedOf editDraft) (some (cleanedOf editDraft).id) = false →
        saveEdit prev editDraft =
          prev.map fun a =>
            if a.id = (cleanedOf editDraft).id then cleanedOf editDraft else a)) ∧
    (∀ editDraft : WeekendActivity,
      (cleanedOf editDraft).start = normalizeTime editDraft.start ∧
      (cleanedOf editDraft).durationMins = max 15 (roundToStep editDraft.durationMins 15) ∧
      15 ∣ (cleanedOf editDraft).durationMins ∧ 15 ≤ (cleanedOf editDraft).durationMins) ∧
    (∀ s : String, matchesTimeRe s = false → normalizeTime s = "08:00") ∧
    (∀ s : String, isValidHHMM (normalizeTime s) = true) := by
  refine ⟨?_, ?_, ?_, normalizeTime_valid⟩
  · intro prev editDraft
    constructor
    · intro hconf
      unfold saveEdit
      simp [hconf]
    · intro hconf
      unfold saveEdit
      simp [hconf]
  · intro editDraft
    exact ⟨rfl, rfl, duration_norm_dvd _, le_max_left _ _⟩
  · intro s hm
    unfold normalizeTime
    rw [if_neg (by simp [hm])]

/-- Witness for C8: an unparseable start falls back to the safe default. -/
theorem saveEdit_normalization_witness :
    normalizeTime ("not a time") = "08:00" :=
  saveEdit_normalization.2.2.1 ("not a time") (by decide)

/-- C9 counterexample: with 51 items (threshold 50, so windowing is
active), item height 10, container height 10, scroll offset 10 and
overscan 0, index 0's pixel span `[0, 10]` touches the viewport
`[10, 20]` under the claim's closed-interval reading, yet no returned item
has index 0 — the window starts at `floor(10 / 10) = 1`. -/
theorem virtualization_boundary_counterexample :
    (0 : Nat) * 10 ≤ 10 + 10 ∧ (10 : Nat) ≤ (0 + 1) * 10 ∧ (0 : Nat) < 51 ∧ (50 : Nat) < 51 ∧
    (computeVirtualItems 51 10 10 10 0 50).all (fun it => decide (it.index ≠ 0)) = true :=
  ⟨by decide, by decide, by decide, by decide, by decide⟩

/-- C9 amended: at or below the threshold every index `0..n-1` is returned
with its cumulative offsets; above the threshold the returned window
contains every index whose half-open pixel span `[i·h, (i+1)·h)` meets the
half-open viewport `[scroll, scroll+container)` (i.e.
`i·h < scroll+container` and `scroll < (i+1)·h`), tagged with its true
offsets.  A span that merely touches the viewport boundary may be omitted
when the overscan is 0, as the counterexample shows. -/
theorem virtualization_window_spec :
    (∀ n itemHeight containerHeight scrollOffset overscan threshold : Nat,
      n ≤ threshold →
      computeVirtualItems n itemHeight containerHeight scrollOffset overscan threshold =
        (List.range n).map fun index =>
          { index := index, start := index * itemHeight,
            end_ := (index + 1) * itemHeight, size := itemHeight }) ∧
    (∀ n itemHeight containerHeight scrollOffset overscan threshold i : Nat,
      threshold < n → 0 < itemHeight → i < n →
      i * itemHeight < scrollOffset + containerHeight →
      scrollOffset < (i + 1) * itemHeight →
      ({ index := i, start := i * itemHeight, end_ := (i + 1) * itemHeight,
         size := itemHeight } : VirtualItem) ∈
        computeVirtualItems n itemHeight containerHeight scrollOffset overscan threshold) := by
  constructor
  · intro n h c s o t hle
    unfold computeVirtualItems
    rw [if_pos hle]
  · intro n h c s o t i ht hh hi hispan hscroll
    unfold computeVirtualItems
    rw [if_neg (by omega)]
    dsimp only
    have hstart : s / h - o ≤ i := by
      have hdiv : s / h < i + 1 := by
        rw [Nat.div_lt_iff_lt_mul hh]
        omega
      omega
    have hceil : i ≤ (s + c + h - 1) / h + o := by
      have : i ≤ (s + c + h - 1) / h := by
        rw [Nat.le_div_iff_mul_le hh]
        omega
      omega
    have hend : i ≤ min (n - 1) ((s + c + h - 1) / h + o) := by
      refine le_min (by omega) hceil
    refine List.mem_map.mpr ⟨i, ?_, rfl⟩
    rw [List.mem_range']
    refine ⟨i - (s / h - o), by omega, by omega⟩

/-- Witness for C9's amended theorem: with 51 items of height 10, a
viewport of height 10 scrolled to offset 15 (pixels 15–25) contains item 2
at offsets 20–30. -/
theorem virtualization_window_spec_witness :
    ({ index := 2, start := 20, end_ := 30, size := 10 } : VirtualItem) ∈
      computeVirtualItems 51 10 10 15 0 50 :=
  virtualization_window_spec.2 51 10 10 15 0 50 2 (by decide) (by decide) (by decide)
    (by decide) (by decide)
